import Mathlib

/-!
Shallow embedding of the social-networking / crowdfunding backend
(models `Campaign`, `Post`, `Group`, `User` and the route handlers for
donations, login, likes, trending, group posts, join and campaign creation).

Modelling conventions:
* Mongo ObjectIds are compared in the source via `toString()` equality only,
  so ids are modelled as `Nat`.
* Timestamps (`Date` values) are epoch milliseconds, modelled as `Int`.
* Money amounts are JS numbers used only in sums and comparisons; they are
  modelled as `Int` (exact arithmetic).
-/

abbrev UserId := Nat

/-- Donation status enum from the donation sub-schema of `Campaign.js`
(pending / completed / failed / refunded, default pending). -/
inductive DonationStatus
  | pending
  | completed
  | failed
  | refunded
deriving DecidableEq

/-- Embedded donation record from the donation sub-schema of `Campaign.js`. -/
structure Donation where
  donor : UserId
  amount : Int
  message : String
  isAnonymous : Bool
  stripePaymentIntentId : Option String
  status : DonationStatus
deriving DecidableEq

/-- Campaign status enum from `Campaign.js`. -/
inductive CampaignStatus
  | draft
  | pending_review
  | active
  | paused
  | completed
  | canceled
deriving DecidableEq

/-- The fields of the `Campaign` schema that the donation, virtual-field and
creation logic reads or writes. -/
structure Campaign where
  goal : Int
  raised : Int
  donations : List Donation
  donorCount : Nat
  status : CampaignStatus
  endDate : Int
deriving DecidableEq

/-- `campaignSchema.methods.addDonation`: push the donation, add its amount to
`raised`, recompute `donorCount` as the size of the set of donor-id strings,
and set status to completed when `raised >= goal`. -/
def Campaign.addDonation (c : Campaign) (donationData : Donation) : Campaign :=
  let donations := c.donations ++ [donationData]
  let raised := c.raised + donationData.amount
  { c with
    donations := donations
    raised := raised
    donorCount := (donations.map Donation.donor).dedup.length
    status := if raised ≥ c.goal then CampaignStatus.completed else c.status }

/-- Sum of the amounts of the donations whose status is completed
(the quantity the spec says `raised` must equal). -/
def completedSum (ds : List Donation) : Int :=
  ((ds.filter (fun d => d.status == DonationStatus.completed)).map Donation.amount).sum

/-- Milliseconds per day, the divisor `1000 * 60 * 60 * 24` in the `daysLeft`
virtual. -/
def msPerDay : Int := 1000 * 60 * 60 * 24

/-- `Math.ceil (a / b)` for an integer-millisecond difference `a` and positive
divisor `b`, as exact integer arithmetic. -/
def ceilDivInt (a b : Int) : Int := -((-a).fdiv b)

/-- The `daysLeft` virtual of `Campaign.js`: `Math.max(0, Math.ceil((end - now) / msPerDay))`. -/
def Campaign.daysLeft (c : Campaign) (now : Int) : Int :=
  max 0 (ceilDivInt (c.endDate - now) msPerDay)

/-- The `isActive` virtual of `Campaign.js`: status is active, `daysLeft > 0`
and `raised < goal`. -/
def Campaign.isActive (c : Campaign) (now : Int) : Bool :=
  (c.status == CampaignStatus.active) &&
    (decide (0 < c.daysLeft now)) &&
    (decide (c.raised < c.goal))

/-- The `amountRemaining` virtual of `Campaign.js`. -/
def Campaign.amountRemaining (c : Campaign) : Int :=
  max 0 (c.goal - c.raised)

/-- The fields of a Stripe payment intent read by the donation webhook handler:
its id, the metadata entries, and the amount in cents. -/
structure PaymentIntent where
  id : String
  userId : UserId
  amount : Int
  message : String
  isAnonymousMeta : String
deriving DecidableEq

/-- The donation record built by `handleDonationSuccess` from the payment
intent: completed status, amount converted from cents, and the intent id as the
external payment reference. -/
def donationOfIntent (paymentIntent : PaymentIntent) : Donation :=
  { donor := paymentIntent.userId
    amount := paymentIntent.amount / 100
    message := paymentIntent.message
    isAnonymous := paymentIntent.isAnonymousMeta == "true"
    stripePaymentIntentId := some paymentIntent.id
    status := DonationStatus.completed }

/-- `handleDonationSuccess` in `payments.js`: look for an existing donation with
the same Stripe payment-intent id; only when none exists, append the completed
donation built from the intent. -/
def handleDonationSuccess (paymentIntent : PaymentIntent) (c : Campaign) : Campaign :=
  if (c.donations.find? (fun d => d.stripePaymentIntentId == some paymentIntent.id)).isSome then
    c
  else
    c.addDonation (donationOfIntent paymentIntent)

/-- Number of donation records of a campaign carrying a given Stripe
payment-intent id. -/
def countWithRef (c : Campaign) (ref : String) : Nat :=
  (c.donations.filter (fun d => d.stripePaymentIntentId == some ref)).length

/-- The fields of a `User` document that the login handler reads: the active
flag and the bcrypt comparison against the stored hash (abstracted as a
predicate on the submitted password). -/
structure LoginUser where
  isActive : Bool
  comparePassword : String → Bool

/-- Responses of the auth routes: 400 with field errors, 401 with an error
message, or 200 with a token pair. -/
inductive AuthResponse
  | badRequest
  | unauthorized (error : String)
  | ok
deriving DecidableEq

/-- `POST /api/auth/login` in `routes/auth.js`: validation first, then user
lookup by email, then the active check, then the bcrypt comparison.
`emailValid` and `passwordProvided` are the results of the two
`loginValidation` rules; `findByEmail` is the result of the user query. -/
def login (emailValid : Bool) (passwordProvided : Bool)
    (findByEmail : Option LoginUser) (password : String) : AuthResponse :=
  if !(emailValid && passwordProvided) then
    AuthResponse.badRequest
  else
    match findByEmail with
    | none => AuthResponse.unauthorized "Invalid email or password"
    | some user =>
      if !user.isActive then
        AuthResponse.unauthorized "Account is deactivated. Please contact support."
      else if !(user.comparePassword password) then
        AuthResponse.unauthorized "Invalid email or password"
      else
        AuthResponse.ok

/-- C6: a campaign whose endDate is strictly before the evaluation time has
`daysLeft = 0` and `isActive = false`, regardless of the status field. -/
theorem daysLeft_zero_and_inactive_of_past_endDate
    (c : Campaign) (now : Int) (h : c.endDate < now) :
    c.daysLeft now = 0 ∧ c.isActive now = false := by
  have hdiff : c.endDate - now < 0 := by omega
  have hfd : 0 ≤ (-(c.endDate - now)).fdiv msPerDay :=
    Int.fdiv_nonneg (by omega) (by decide)
  have hle : ceilDivInt (c.endDate - now) msPerDay ≤ 0 := by
    unfold ceilDivInt; omega
  have hdays : c.daysLeft now = 0 := by
    unfold Campaign.daysLeft
    omega
  refine ⟨hdays, ?_⟩
  unfold Campaign.isActive
  rw [hdays]
  simp

/-- Witness for C6 at a concrete campaign whose end date is one day before the
evaluation time. -/
theorem daysLeft_zero_and_inactive_of_past_endDate_witness :
    ({ goal := 100, raised := 0, donations := [], donorCount := 0,
       status := CampaignStatus.active, endDate := 0 } : Campaign).daysLeft 86400000 = 0 ∧
    ({ goal := 100, raised := 0, donations := [], donorCount := 0,
       status := CampaignStatus.active, endDate := 0 } : Campaign).isActive 86400000 = false :=
  daysLeft_zero_and_inactive_of_past_endDate _ 86400000 (by decide)

/-- C7: with a well-formed email and non-empty password, the login response for
a nonexistent email and the response for an existing active account with a
wrong password are the same 401 with the same generic message. -/
theorem login_no_account_enumeration
    (u : LoginUser) (password : String)
    (hActive : u.isActive = true)
    (hWrong : u.comparePassword password = false) :
    login true true none password = login true true (some u) password ∧
    login true true none password =
      AuthResponse.unauthorized "Invalid email or password" := by
  unfold login
  simp [hActive, hWrong]

/-- Witness for C7 at a concrete account that rejects every password. -/
theorem login_no_account_enumeration_witness :
    login true true none "hunter2" =
      login true true (some { isActive := true, comparePassword := fun _ => false }) "hunter2" ∧
    login true true none "hunter2" =
      AuthResponse.unauthorized "Invalid email or password" :=
  login_no_account_enumeration
    { isActive := true, comparePassword := fun _ => false } "hunter2" rfl rfl

/-- A freshly created campaign as stored by the creation route: `raised = 0`,
no donations, no donors, status active. -/
def newCampaign (goal endDate : Int) : Campaign :=
  { goal := goal, raised := 0, donations := [], donorCount := 0,
    status := CampaignStatus.active, endDate := endDate }

/-- A donation whose status is the schema default pending. -/
def pendingDonation : Donation :=
  { donor := 1, amount := 5, message := "", isAnonymous := false,
    stripePaymentIntentId := none, status := DonationStatus.pending }

/-- One step of the raised-equals-completed-sum invariant: `addDonation`
preserves it when the added donation has status completed. -/
theorem addDonation_preserves_completedSum
    (c : Campaign) (d : Donation)
    (h : c.raised = completedSum c.donations)
    (hd : d.status = DonationStatus.completed) :
    (c.addDonation d).raised = completedSum (c.addDonation d).donations := by
  unfold Campaign.addDonation completedSum
  simp only [List.filter_append, List.map_append, List.sum_append]
  rw [h]
  unfold completedSum
  simp [List.filter_cons, hd]

/-- The invariant holds after any fold of completed-status donations over a
campaign that already satisfies it. -/
theorem foldl_addDonation_completedSum :
    ∀ (ds : List Donation) (c : Campaign),
      c.raised = completedSum c.donations →
      (∀ d ∈ ds, d.status = DonationStatus.completed) →
      (ds.foldl Campaign.addDonation c).raised =
        completedSum (ds.foldl Campaign.addDonation c).donations
  | [], _, h, _ => h
  | d :: ds, c, h, hc => by
    rw [List.foldl_cons]
    exact foldl_addDonation_completedSum ds (c.addDonation d)
      (addDonation_preserves_completedSum c d h (hc d (by simp)))
      (fun d' hd' => hc d' (by simp [hd']))

/-- C1 counterexample: the claim quantifies over every sequence of
`addDonation` calls, but `addDonation` adds the amount to `raised` regardless
of the donation status; one call with a pending-status donation (the schema
default) already violates raised = completed sum. -/
theorem raised_eq_completedSum_counterexample :
    (newCampaign 100 0).raised = 0 ∧
    (newCampaign 100 0).donations = [] ∧
    ¬ (((newCampaign 100 0).addDonation pendingDonation).raised =
        completedSum ((newCampaign 100 0).addDonation pendingDonation).donations) := by
  decide

/-- C1 amended: starting from a newly created campaign (raised 0, empty
donation list), after any sequence of `addDonation` calls in which every added
donation has status completed (as at both call sites in the repository),
`raised` equals the sum of the completed-status donation amounts. -/
theorem raised_eq_completedSum_of_completed_calls
    (c : Campaign) (ds : List Donation)
    (h0 : c.raised = 0) (h1 : c.donations = [])
    (hc : ∀ d ∈ ds, d.status = DonationStatus.completed) :
    (ds.foldl Campaign.addDonation c).raised =
      completedSum (ds.foldl Campaign.addDonation c).donations := by
  apply foldl_addDonation_completedSum ds c ?_ hc
  rw [h0, h1]
  rfl

/-- Two completed-status donations used as a concrete call sequence. -/
def twoCompletedDonations : List Donation :=
  [{ donor := 1, amount := 40, message := "", isAnonymous := false,
     stripePaymentIntentId := some "pi_1", status := DonationStatus.completed },
   { donor := 2, amount := 60, message := "", isAnonymous := true,
     stripePaymentIntentId := some "pi_2", status := DonationStatus.completed }]

/-- Witness for C1 amended at a two-donation sequence. -/
theorem raised_eq_completedSum_of_completed_calls_witness :
    (twoCompletedDonations.foldl Campaign.addDonation (newCampaign 100 0)).raised =
      completedSum
        ((twoCompletedDonations.foldl Campaign.addDonation (newCampaign 100 0)).donations) :=
  raised_eq_completedSum_of_completed_calls (newCampaign 100 0) twoCompletedDonations rfl rfl
    (by decide)

/-- C3: after `addDonation`, the status is completed whenever the new raised
total reaches the goal (including exact equality), and `donorCount` is the
number of distinct donor ids among all donation records. -/
theorem addDonation_goal_status_and_distinct_donorCount
    (c : Campaign) (d : Donation)
    (h : c.goal ≤ (c.addDonation d).raised) :
    (c.addDonation d).status = CampaignStatus.completed ∧
    (c.addDonation d).donorCount =
      ((c.addDonation d).donations.map Donation.donor).toFinset.card := by
  constructor
  · have h' : c.goal ≤ c.raised + d.amount := h
    unfold Campaign.addDonation
    simp [h']
  · exact (List.card_toFinset (((c.addDonation d).donations).map Donation.donor)).symm

/-- A campaign at 60 of 100 with one completed donation from donor 7. -/
def partFundedCampaign : Campaign :=
  { goal := 100, raised := 60, donorCount := 1, status := CampaignStatus.active,
    endDate := 0,
    donations := [{ donor := 7, amount := 60, message := "", isAnonymous := false,
                    stripePaymentIntentId := some "pi_a",
                    status := DonationStatus.completed }] }

/-- A second donation by the same donor 7 bringing raised to exactly the goal. -/
def repeatDonorDonation : Donation :=
  { donor := 7, amount := 40, message := "", isAnonymous := false,
    stripePaymentIntentId := some "pi_b", status := DonationStatus.completed }

/-- Witness for C3: a donation that brings raised to exactly the goal, from a
repeat donor, completes the campaign and counts the donor once. -/
theorem addDonation_goal_status_and_distinct_donorCount_witness :
    (partFundedCampaign.addDonation repeatDonorDonation).status =
      CampaignStatus.completed ∧
    (partFundedCampaign.addDonation repeatDonorDonation).donorCount =
      ((partFundedCampaign.addDonation repeatDonorDonation).donations.map
          Donation.donor).toFinset.card :=
  addDonation_goal_status_and_distinct_donorCount partFundedCampaign repeatDonorDonation
    (by decide)

/-- C2: on a campaign with no donation carrying the payment-intent id yet,
delivering the succeeded-payment webhook twice is the same as delivering it
once; afterwards at most one donation carries that reference and `raised` was
increased exactly once. -/
theorem handleDonationSuccess_duplicate_delivery
    (c : Campaign) (paymentIntent : PaymentIntent)
    (h : countWithRef c paymentIntent.id = 0) :
    handleDonationSuccess paymentIntent (handleDonationSuccess paymentIntent c) =
      handleDonationSuccess paymentIntent c ∧
    countWithRef (handleDonationSuccess paymentIntent (handleDonationSuccess paymentIntent c))
      paymentIntent.id ≤ 1 ∧
    (handleDonationSuccess paymentIntent (handleDonationSuccess paymentIntent c)).raised =
      c.raised + paymentIntent.amount / 100 := by
  have hnil : c.donations.filter
      (fun d => d.stripePaymentIntentId == some paymentIntent.id) = [] :=
    List.length_eq_zero.mp h
  have hall : ∀ d ∈ c.donations,
      ¬ ((d.stripePaymentIntentId == some paymentIntent.id) = true) := by
    intro d hd hcontra
    have hmem : d ∈ c.donations.filter
        (fun d => d.stripePaymentIntentId == some paymentIntent.id) :=
      List.mem_filter.mpr ⟨hd, hcontra⟩
    rw [hnil] at hmem
    exact List.not_mem_nil d hmem
  have hnone : c.donations.find?
      (fun d => d.stripePaymentIntentId == some paymentIntent.id) = none :=
    List.find?_eq_none.mpr hall
  have hfirst : handleDonationSuccess paymentIntent c =
      c.addDonation (donationOfIntent paymentIntent) := by
    unfold handleDonationSuccess
    rw [hnone]
    simp
  have hmemNew : donationOfIntent paymentIntent ∈
      (c.addDonation (donationOfIntent paymentIntent)).donations := by
    simp [Campaign.addDonation]
  have hpNew : ((donationOfIntent paymentIntent).stripePaymentIntentId ==
      some paymentIntent.id) = true := by
    simp [donationOfIntent]
  have hsecond : (((c.addDonation (donationOfIntent paymentIntent)).donations.find?
      (fun d => d.stripePaymentIntentId == some paymentIntent.id)).isSome) = true := by
    rw [List.find?_isSome]
    exact ⟨donationOfIntent paymentIntent, hmemNew, hpNew⟩
  have hdouble : handleDonationSuccess paymentIntent (handleDonationSuccess paymentIntent c) =
      handleDonationSuccess paymentIntent c := by
    rw [hfirst]
    unfold handleDonationSuccess
    simp [hsecond]
  refine ⟨hdouble, ?_, ?_⟩
  · rw [hdouble, hfirst]
    unfold countWithRef
    have hdon : (c.addDonation (donationOfIntent paymentIntent)).donations =
        c.donations ++ [donationOfIntent paymentIntent] := by
      simp [Campaign.addDonation]
    rw [hdon, List.filter_append, hnil]
    simp [donationOfIntent]
  · rw [hdouble, hfirst]
    simp [Campaign.addDonation, donationOfIntent]

/-- A payment intent for 25 dollars in cents. -/
def samplePaymentIntent : PaymentIntent :=
  { id := "pi_42", userId := 3, amount := 2500, message := "", isAnonymousMeta := "false" }

/-- Witness for C2 on a fresh campaign with no donations. -/
theorem handleDonationSuccess_duplicate_delivery_witness :
    handleDonationSuccess samplePaymentIntent
        (handleDonationSuccess samplePaymentIntent (newCampaign 100 0)) =
      handleDonationSuccess samplePaymentIntent (newCampaign 100 0) ∧
    countWithRef
        (handleDonationSuccess samplePaymentIntent
          (handleDonationSuccess samplePaymentIntent (newCampaign 100 0)))
        samplePaymentIntent.id ≤ 1 ∧
    (handleDonationSuccess samplePaymentIntent
        (handleDonationSuccess samplePaymentIntent (newCampaign 100 0))).raised =
      (newCampaign 100 0).raised + samplePaymentIntent.amount / 100 :=
  handleDonationSuccess_duplicate_delivery (newCampaign 100 0) samplePaymentIntent (by decide)

/-- Post visibility enum from the `Post` schema. -/
inductive PostVisibility
  | public
  | followers
  | group
  | «private»
deriving DecidableEq

/-- Embedded comment record from the comment sub-schema of the `Post` model. -/
structure Comment where
  author : UserId
  content : String
deriving DecidableEq

/-- Embedded share record of the `Post` model. -/
structure Share where
  user : UserId
deriving DecidableEq

/-- The fields of the `Post` schema read by the like, trending and group-posts
logic. -/
structure Post where
  author : UserId
  content : String
  group : Option Nat
  likes : List UserId
  comments : List Comment
  shares : List Share
  visibility : PostVisibility
  isPinned : Bool
  isDeleted : Bool
  createdAt : Int
deriving DecidableEq

/-- `postSchema.methods.isLikedBy`: string-id membership scan of `likes`. -/
def Post.isLikedBy (p : Post) (userId : UserId) : Bool :=
  p.likes.any (fun id => id == userId)

/-- Responses of `POST /api/posts/:id/like`: 404 for a missing or deleted post,
otherwise the new liked flag and like count. -/
inductive LikeResponse
  | notFound
  | toggled (liked : Bool) (likeCount : Nat)
deriving DecidableEq

/-- The like route shown in the repository README: 404 when the post is deleted;
otherwise remove the requester from `likes` when present, append when absent. -/
def likePost (p : Post) (userId : UserId) : LikeResponse × Post :=
  if p.isDeleted then
    (LikeResponse.notFound, p)
  else
    let isLiked := p.isLikedBy userId
    let p₁ :=
      if isLiked then
        { p with likes := p.likes.filter (fun id => !(id == userId)) }
      else
        { p with likes := p.likes ++ [userId] }
    (LikeResponse.toggled (!isLiked) p₁.likes.length, p₁)

/-- One like operation on a non-deleted post, written as a single record
update. -/
theorem likePost_not_deleted (q : Post) (u : UserId) (hq : q.isDeleted = false) :
    (likePost q u).2 =
      if q.isLikedBy u then
        { q with likes := q.likes.filter (fun id => !(id == u)) }
      else
        { q with likes := q.likes ++ [u] } := by
  unfold likePost
  simp [hq]

/-- Bool-to-Prop reading of `isLikedBy`. -/
theorem isLikedBy_iff (p : Post) (u : UserId) :
    p.isLikedBy u = true ↔ u ∈ p.likes := by
  simp [Post.isLikedBy]

/-- C5: on a non-deleted post, liking twice by the same user restores the likes
set, and one like toggles membership of that user. -/
theorem likePost_twice_restores_likes
    (p : Post) (u : UserId) (h : p.isDeleted = false) :
    (∀ x, x ∈ (likePost (likePost p u).2 u).2.likes ↔ x ∈ p.likes) ∧
    (u ∈ (likePost p u).2.likes ↔ u ∉ p.likes) := by
  by_cases hm : u ∈ p.likes
  · have hy0 : p.isLikedBy u = true := (isLikedBy_iff p u).mpr hm
    have h1 : (likePost p u).2 =
        { p with likes := p.likes.filter (fun id => !(id == u)) } := by
      rw [likePost_not_deleted p u h, if_pos hy0]
    have hd1 : (likePost p u).2.isDeleted = false := by
      rw [h1]; exact h
    have hn1 : ¬ ((likePost p u).2.isLikedBy u = true) := by
      rw [h1]
      simp [Post.isLikedBy]
    have h2 : (likePost (likePost p u).2 u).2 =
        { p with likes := p.likes.filter (fun id => !(id == u)) ++ [u] } := by
      rw [likePost_not_deleted _ u hd1, if_neg hn1, h1]
    constructor
    · intro x
      rw [h2]
      simp only [List.mem_append, List.mem_filter, List.mem_singleton]
      constructor
      · rintro (⟨hx, _⟩ | rfl)
        · exact hx
        · exact hm
      · intro hx
        by_cases hxu : x = u
        · exact Or.inr hxu
        · exact Or.inl ⟨hx, by simp [hxu]⟩
    · rw [h1]
      simp [hm]
  · have hn0 : ¬ (p.isLikedBy u = true) := fun hc => hm ((isLikedBy_iff p u).mp hc)
    have h1 : (likePost p u).2 = { p with likes := p.likes ++ [u] } := by
      rw [likePost_not_deleted p u h, if_neg hn0]
    have hd1 : (likePost p u).2.isDeleted = false := by
      rw [h1]; exact h
    have hy1 : (likePost p u).2.isLikedBy u = true := by
      rw [h1]; simp [Post.isLikedBy]
    have h2 : (likePost (likePost p u).2 u).2 =
        { p with likes := (p.likes ++ [u]).filter (fun id => !(id == u)) } := by
      rw [likePost_not_deleted _ u hd1, if_pos hy1, h1]
    constructor
    · intro x
      rw [h2]
      simp only [List.filter_append, List.mem_append, List.mem_filter]
      constructor
      · rintro (⟨hx, _⟩ | hx)
        · exact hx
        · simp at hx
      · intro hx
        have hxu : x ≠ u := fun hxu => hm (hxu ▸ hx)
        exact Or.inl ⟨hx, by simp [hxu]⟩
    · rw [h1]
      simp [hm]

/-- Witness for C5 on a concrete post with two likes. -/
theorem likePost_twice_restores_likes_witness :
    (∀ x, x ∈ (likePost (likePost
        { author := 1, content := "hello", group := none, likes := [2, 3], comments := [],
          shares := [], visibility := PostVisibility.public, isPinned := false,
          isDeleted := false, createdAt := 0 } 2).2 2).2.likes ↔
      x ∈ ({ author := 1, content := "hello", group := none, likes := [2, 3], comments := [],
             shares := [], visibility := PostVisibility.public, isPinned := false,
             isDeleted := false, createdAt := 0 } : Post).likes) ∧
    (2 ∈ (likePost
        { author := 1, content := "hello", group := none, likes := [2, 3], comments := [],
          shares := [], visibility := PostVisibility.public, isPinned := false,
          isDeleted := false, createdAt := 0 } 2).2.likes ↔
      2 ∉ ({ author := 1, content := "hello", group := none, likes := [2, 3], comments := [],
             shares := [], visibility := PostVisibility.public, isPinned := false,
             isDeleted := false, createdAt := 0 } : Post).likes) :=
  likePost_twice_restores_likes _ 2 rfl

/-- Insertion of an element into a list in front of the first entry it compares
at-or-before; used to model the descending database sorts. -/
def insertBy {α : Type} (le : α → α → Bool) (a : α) : List α → List α
  | [] => [a]
  | b :: bs => if le a b then a :: b :: bs else b :: insertBy le a bs

/-- Insertion sort with comparator `le`; models the ordering the aggregation
pipelines request from the database. -/
def sortBy {α : Type} (le : α → α → Bool) : List α → List α
  | [] => []
  | a :: as => insertBy le a (sortBy le as)

theorem mem_insertBy {α : Type} (le : α → α → Bool) (a x : α) (l : List α) :
    x ∈ insertBy le a l ↔ x = a ∨ x ∈ l := by
  induction l with
  | nil => simp [insertBy]
  | cons b bs ih =>
    simp only [insertBy]
    split
    · simp
    · simp [ih]
      tauto

theorem mem_sortBy {α : Type} (le : α → α → Bool) (x : α) (l : List α) :
    x ∈ sortBy le l ↔ x ∈ l := by
  induction l with
  | nil => simp [sortBy]
  | cons a as ih => simp [sortBy, mem_insertBy, ih]

theorem pairwise_insertBy {α : Type} (le : α → α → Bool)
    (htot : ∀ a b, le a b = true ∨ le b a = true)
    (htrans : ∀ a b c, le a b = true → le b c = true → le a c = true)
    (a : α) (l : List α) (hl : l.Pairwise (fun x y => le x y = true)) :
    (insertBy le a l).Pairwise (fun x y => le x y = true) := by
  induction l with
  | nil => simp [insertBy]
  | cons b bs ih =>
    rcases hl with _ | ⟨hb, hbs⟩
    simp only [insertBy]
    split
    · rename_i hab
      refine List.Pairwise.cons ?_ (List.Pairwise.cons hb hbs)
      intro y hy
      rcases List.mem_cons.mp hy with rfl | hy
      · exact hab
      · exact htrans a b y hab (hb y hy)
    · rename_i hab
      have hba : le b a = true := by
        rcases htot a b with h | h
        · exact absurd h hab
        · exact h
      refine List.Pairwise.cons ?_ (ih hbs)
      intro y hy
      rcases (mem_insertBy le a y bs).mp hy with rfl | hy
      · exact hba
      · exact hb y hy

theorem pairwise_sortBy {α : Type} (le : α → α → Bool)
    (htot : ∀ a b, le a b = true ∨ le b a = true)
    (htrans : ∀ a b c, le a b = true → le b c = true → le a c = true)
    (l : List α) :
    (sortBy le l).Pairwise (fun x y => le x y = true) := by
  induction l with
  | nil => simp [sortBy]
  | cons a as ih => exact pairwise_insertBy le htot htrans a (sortBy le as) ih

/-- The `engagement` field added by `postSchema.statics.getTrending`:
`likes + 2 * comments + 3 * shares` over the sizes of the embedded arrays. -/
def Post.engagement (p : Post) : Nat :=
  p.likes.length + p.comments.length * 2 + p.shares.length * 3

/-- Descending comparison on engagement, the `sort engagement: -1` stage. -/
def engagementGe (p q : Post) : Bool :=
  decide (q.engagement ≤ p.engagement)

/-- The `match` stage of `getTrending`: created within the last 24 hours, not
deleted, public visibility, not a group post. -/
def trendingFilter (now : Int) (p : Post) : Bool :=
  decide (now - msPerDay ≤ p.createdAt) && !p.isDeleted &&
    (p.visibility == PostVisibility.public) && (p.group == none)

/-- `postSchema.statics.getTrending`: match, add engagement, sort descending,
limit. -/
def getTrending (now : Int) (posts : List Post) (limit : Nat) : List Post :=
  (sortBy engagementGe (posts.filter (trendingFilter now))).take limit

/-- Trending example post A: 10 likes, 5 comments, 2 shares (score 26). -/
def postA : Post :=
  { author := 1, content := "A", group := none,
    likes := List.range 10,
    comments := List.replicate 5 { author := 2, content := "c" },
    shares := List.replicate 2 { user := 3 },
    visibility := PostVisibility.public, isPinned := false, isDeleted := false,
    createdAt := 86400000 }

/-- Trending example post B: 15 likes, no comments, no shares (score 15). -/
def postB : Post :=
  { author := 1, content := "B", group := none,
    likes := List.range 15,
    comments := [],
    shares := [],
    visibility := PostVisibility.public, isPinned := false, isDeleted := false,
    createdAt := 86400000 }

/-- C4: trending output lists only non-deleted public non-group posts of the
last 24 hours in descending engagement order, and on the concrete A/B example
(scores 26 and 15) post A ranks above post B. -/
theorem getTrending_ranks_by_engagement :
    (∀ (now : Int) (posts : List Post) (limit : Nat),
      (getTrending now posts limit).Pairwise
        (fun p q => q.engagement ≤ p.engagement) ∧
      ∀ p ∈ getTrending now posts limit, trendingFilter now p = true) ∧
    getTrending 86400000 [postB, postA] 10 = [postA, postB] := by
  constructor
  · intro now posts limit
    constructor
    · have htot : ∀ a b : Post, engagementGe a b = true ∨ engagementGe b a = true := by
        intro a b
        simp [engagementGe]
        omega
      have htrans : ∀ a b c : Post, engagementGe a b = true → engagementGe b c = true →
          engagementGe a c = true := by
        intro a b c
        simp [engagementGe]
        omega
      have hs := pairwise_sortBy engagementGe htot htrans (posts.filter (trendingFilter now))
      have ht := List.Pairwise.sublist (List.take_sublist limit _) hs
      exact ht.imp (fun h => by simpa [engagementGe] using h)
    · intro p hp
      have h1 : p ∈ sortBy engagementGe (posts.filter (trendingFilter now)) :=
        List.mem_of_mem_take hp
      have h2 : p ∈ posts.filter (trendingFilter now) :=
        (mem_sortBy engagementGe p _).mp h1
      exact List.of_mem_filter h2
  · decide

/-- Group privacy enum from the `Group` schema. -/
inductive GroupPrivacy
  | public
  | «private»
  | secret
deriving DecidableEq

/-- Member role enum of the `members` sub-documents of the `Group` schema. -/
inductive GroupRole
  | member
  | moderator
  | admin
deriving DecidableEq

/-- A `members` entry of a group: user reference plus role. -/
structure GroupMember where
  user : UserId
  role : GroupRole
deriving DecidableEq

/-- The fields of the `Group` schema read by the join and posts-listing
routes. -/
structure GroupDoc where
  privacy : GroupPrivacy
  creator : UserId
  members : List GroupMember
  pendingRequests : List UserId
  isActive : Bool
deriving DecidableEq

/-- `groupSchema.methods.isMember`: string-id scan of the members list. -/
def GroupDoc.isMember (g : GroupDoc) (userId : UserId) : Bool :=
  g.members.any (fun m => m.user == userId)

/-- `groupSchema.methods.addMember`: append with role member unless already a
member. -/
def GroupDoc.addMember (g : GroupDoc) (userId : UserId) : GroupDoc :=
  if g.isMember userId then g
  else { g with members := g.members ++ [{ user := userId, role := GroupRole.member }] }

/-- `group.isMember(req.userId)` as evaluated by the `optionalAuth` posts
listing. For an anonymous request `req.userId` is undefined, and the callback
of `members.some` evaluates `userId.toString()`, which throws a TypeError as
soon as the members list is non-empty; `Array.prototype.some` on an empty list
returns false without running the callback. The thrown case is modelled as
`none`, a normal result as `some`. -/
def isMemberReq (g : GroupDoc) (requester : Option UserId) : Option Bool :=
  match requester with
  | some u => some (g.isMember u)
  | none => if g.members.isEmpty then some false else none

/-- Responses of `POST /api/groups/:id/join`. -/
inductive JoinResponse
  | notFound
  | alreadyMember
  | requestSent
  | joined
deriving DecidableEq

/-- `POST /api/groups/:id/join`: 404 for a missing or inactive group, 400 when
already a member, a queued pending request for a private group, and a direct
`addMember` otherwise (public and secret alike). Returns the response and the
stored group. -/
def joinGroup (g : Option GroupDoc) (userId : UserId) : JoinResponse × Option GroupDoc :=
  match g with
  | none => (JoinResponse.notFound, none)
  | some g =>
    if !g.isActive then (JoinResponse.notFound, some g)
    else if g.isMember userId then (JoinResponse.alreadyMember, some g)
    else if g.privacy == GroupPrivacy.«private» then
      (JoinResponse.requestSent, some { g with pendingRequests := g.pendingRequests ++ [userId] })
    else
      (JoinResponse.joined, some (g.addMember userId))

/-- The sort `isPinned: -1, createdAt: -1` used by the group-posts listing:
pinned first, then newest first. -/
def groupPostGe (p q : Post) : Bool :=
  if p.isPinned == q.isPinned then decide (q.createdAt ≤ p.createdAt) else p.isPinned

/-- Responses of `GET /api/groups/:id/posts`: 404 for a missing group, 403 for
a refused non-member, 500 when the handler throws into its catch, or the posts
page. -/
inductive GroupPostsResponse
  | notFound
  | forbidden
  | serverError
  | ok (posts : List Post)
deriving DecidableEq

/-- The posts page built by the listing: the non-deleted posts of the group,
pinned-then-newest, paginated with skip and limit. -/
def groupPostsPage (groupId : Nat) (db : List Post) (page limit : Nat) : List Post :=
  ((sortBy groupPostGe
      (db.filter (fun p => (p.group == some groupId) && !p.isDeleted))).drop
    ((page - 1) * limit)).take limit

/-- `GET /api/groups/:id/posts`: 404 when the group is missing. When the group
is not public the handler evaluates `group.isMember(req.userId)` before
anything else: a thrown TypeError lands in the catch and is answered 500, a
false result 403; otherwise the posts page is returned. -/
def getGroupPosts (g : Option GroupDoc) (groupId : Nat) (requester : Option UserId)
    (db : List Post) (page limit : Nat) : GroupPostsResponse :=
  match g with
  | none => GroupPostsResponse.notFound
  | some g =>
    if g.privacy == GroupPrivacy.public then
      GroupPostsResponse.ok (groupPostsPage groupId db page limit)
    else
      match isMemberReq g requester with
      | none => GroupPostsResponse.serverError
      | some false => GroupPostsResponse.forbidden
      | some true => GroupPostsResponse.ok (groupPostsPage groupId db page limit)

/-- Every post in a listing page belongs to the group and is not deleted. -/
theorem mem_groupPostsPage (groupId : Nat) (db : List Post) (page limit : Nat)
    (p : Post) (hmem : p ∈ groupPostsPage groupId db page limit) :
    p.group = some groupId ∧ p.isDeleted = false := by
  have h1 : p ∈ (sortBy groupPostGe
      (db.filter (fun p => (p.group == some groupId) && !p.isDeleted))).drop
        ((page - 1) * limit) :=
    List.mem_of_mem_take hmem
  have h2 : p ∈ sortBy groupPostGe
      (db.filter (fun p => (p.group == some groupId) && !p.isDeleted)) :=
    List.mem_of_mem_drop h1
  have h3 : p ∈ db.filter (fun p => (p.group == some groupId) && !p.isDeleted) :=
    (mem_sortBy groupPostGe p _).mp h2
  have h4 := List.of_mem_filter h3
  simp only [Bool.and_eq_true, beq_iff_eq, Bool.not_eq_true'] at h4
  exact h4

/-- A concrete private group whose only member is user 5. -/
def privateGroup : GroupDoc :=
  { privacy := GroupPrivacy.«private», creator := 5,
    members := [{ user := 5, role := GroupRole.admin }],
    pendingRequests := [], isActive := true }

/-- A non-deleted post inside group 9. -/
def groupPost : Post :=
  { author := 5, content := "inside", group := some 9, likes := [], comments := [],
    shares := [], visibility := PostVisibility.group, isPinned := false,
    isDeleted := false, createdAt := 10 }

/-- C8 counterexample: an anonymous request - a requester who is not a member -
to a private group with one member is answered 500, not 403: the handler
evaluates `isMember(undefined)`, whose `userId.toString()` throws, and the
catch returns the server-error response. -/
theorem getGroupPosts_anonymous_counterexample :
    privateGroup.privacy ≠ GroupPrivacy.public ∧
    privateGroup.members ≠ [] ∧
    getGroupPosts (some privateGroup) 9 none [groupPost] 1 20 =
      GroupPostsResponse.serverError ∧
    getGroupPosts (some privateGroup) 9 none [groupPost] 1 20 ≠
      GroupPostsResponse.forbidden := by
  decide

/-- C8 amended: for a non-public group, an authenticated requester who is not a
member receives 403, a member receives only the non-deleted posts of that
group, and an anonymous requester receives 500 whenever the group has at least
one member (the membership scan throws on the undefined user id). -/
theorem getGroupPosts_membership_gate
    (g : GroupDoc) (groupId : Nat) (u : UserId)
    (db : List Post) (page limit : Nat)
    (hp : g.privacy ≠ GroupPrivacy.public) :
    (g.isMember u = false →
      getGroupPosts (some g) groupId (some u) db page limit =
        GroupPostsResponse.forbidden) ∧
    (g.isMember u = true →
      ∃ l, getGroupPosts (some g) groupId (some u) db page limit =
          GroupPostsResponse.ok l ∧
        ∀ p ∈ l, p.group = some groupId ∧ p.isDeleted = false) ∧
    (g.members ≠ [] →
      getGroupPosts (some g) groupId none db page limit =
        GroupPostsResponse.serverError) := by
  refine ⟨?_, ?_, ?_⟩
  · intro hnm
    unfold getGroupPosts isMemberReq
    simp [hp, hnm]
  · intro hm
    unfold getGroupPosts isMemberReq
    simp only [hp, hm]
    refine ⟨groupPostsPage groupId db page limit, ?_, ?_⟩
    · simp [beq_iff_eq, hp]
    · intro p hmem
      exact mem_groupPostsPage groupId db page limit p hmem
  · intro hne
    have hempty : g.members.isEmpty = false := by
      cases hml : g.members with
      | nil => exact absurd hml hne
      | cons a as => rfl
    unfold getGroupPosts isMemberReq
    simp [hp, hempty]

/-- Witness for C8 amended: outsider 6 is refused, member 5 gets only group-9
posts, and the anonymous request hits the 500 path. -/
theorem getGroupPosts_membership_gate_witness :
    (privateGroup.isMember 6 = false →
      getGroupPosts (some privateGroup) 9 (some 6) [groupPost] 1 20 =
        GroupPostsResponse.forbidden) ∧
    (privateGroup.isMember 6 = true →
      ∃ l, getGroupPosts (some privateGroup) 9 (some 6) [groupPost] 1 20 =
          GroupPostsResponse.ok l ∧
        ∀ p ∈ l, p.group = some 9 ∧ p.isDeleted = false) ∧
    (privateGroup.members ≠ [] →
      getGroupPosts (some privateGroup) 9 none [groupPost] 1 20 =
        GroupPostsResponse.serverError) :=
  getGroupPosts_membership_gate privateGroup 9 6 [groupPost] 1 20 (by decide)

/-- C10: joining an active secret group as an authenticated non-member appends
the requester to the members list with role member, leaving pending requests
unchanged, exactly as the same join on the group with public privacy. -/
theorem joinGroup_secret_joins_directly
    (g : GroupDoc) (u : UserId)
    (hs : g.privacy = GroupPrivacy.secret)
    (ha : g.isActive = true)
    (hm : g.isMember u = false) :
    joinGroup (some g) u =
      (JoinResponse.joined,
        some { g with members := g.members ++ [{ user := u, role := GroupRole.member }] }) ∧
    (joinGroup (some { g with privacy := GroupPrivacy.public }) u).1 =
      JoinResponse.joined ∧
    ((joinGroup (some { g with privacy := GroupPrivacy.public }) u).2).map GroupDoc.members =
      ((joinGroup (some g) u).2).map GroupDoc.members := by
  have hadd : g.addMember u =
      { g with members := g.members ++ [{ user := u, role := GroupRole.member }] } := by
    unfold GroupDoc.addMember
    simp [hm]
  have hjoin : joinGroup (some g) u =
      (JoinResponse.joined,
        some { g with members := g.members ++ [{ user := u, role := GroupRole.member }] }) := by
    unfold joinGroup
    simp [ha, hm, hs, hadd]
  have hmPub : ({ g with privacy := GroupPrivacy.public } : GroupDoc).isMember u = false := hm
  have haddPub : ({ g with privacy := GroupPrivacy.public } : GroupDoc).addMember u =
      { g with privacy := GroupPrivacy.public,
               members := g.members ++ [{ user := u, role := GroupRole.member }] } := by
    unfold GroupDoc.addMember
    simp [hmPub]
  have hm' : (g.members.any (fun m => m.user == u)) = false := hm
  have hjoinPub : joinGroup (some { g with privacy := GroupPrivacy.public }) u =
      (JoinResponse.joined,
        some { g with privacy := GroupPrivacy.public,
                      members := g.members ++ [{ user := u, role := GroupRole.member }] }) := by
    unfold joinGroup GroupDoc.addMember GroupDoc.isMember
    simp [ha, hm']
  refine ⟨hjoin, ?_, ?_⟩
  · rw [hjoinPub]
  · rw [hjoinPub, hjoin]
    rfl

/-- A concrete active secret group whose only member is its creator 5. -/
def secretGroup : GroupDoc :=
  { privacy := GroupPrivacy.secret, creator := 5,
    members := [{ user := 5, role := GroupRole.admin }],
    pendingRequests := [], isActive := true }

/-- Witness for C10: user 8 joins the secret group directly as a member. -/
theorem joinGroup_secret_joins_directly_witness :
    joinGroup (some secretGroup) 8 =
      (JoinResponse.joined,
        some { secretGroup with
                 members := secretGroup.members ++ [{ user := 8, role := GroupRole.member }] }) ∧
    (joinGroup (some { secretGroup with privacy := GroupPrivacy.public }) 8).1 =
      JoinResponse.joined ∧
    ((joinGroup (some { secretGroup with privacy := GroupPrivacy.public }) 8).2).map
        GroupDoc.members =
      ((joinGroup (some secretGroup) 8).2).map GroupDoc.members :=
  joinGroup_secret_joins_directly secretGroup 8 rfl rfl (by decide)

/-- A campaign-creation request as seen by the validation chain of
`POST /api/campaigns`: trimmed title and description lengths, the numeric goal,
the category string, and the result of parsing `endDate` as an ISO-8601 date
(none when malformed). -/
structure CampaignRequest where
  titleLength : Nat
  descriptionLength : Nat
  goal : Int
  category : String
  endDate : Option Int
deriving DecidableEq

/-- The category enum accepted by the campaign validator. -/
def campaignCategories : List String :=
  ["Environment", "Education", "Economic Development", "Healthcare",
   "Technology", "Community", "Emergency Relief", "Research", "Social Impact",
   "Other"]

/-- The validator array of `POST /api/campaigns`: title 10..200 and non-empty,
description 100..10000 and non-empty, numeric goal with `v >= 100`, category in
the enum, and `endDate` a well-formed ISO-8601 date. Nothing compares `endDate`
with the current time. -/
def createCampaignValid (r : CampaignRequest) : Bool :=
  decide (1 ≤ r.titleLength) && decide (10 ≤ r.titleLength) &&
    decide (r.titleLength ≤ 200) &&
    decide (1 ≤ r.descriptionLength) && decide (100 ≤ r.descriptionLength) &&
    decide (r.descriptionLength ≤ 10000) &&
    decide (100 ≤ r.goal) &&
    campaignCategories.contains r.category &&
    r.endDate.isSome

/-- Responses of `POST /api/campaigns`. -/
inductive CreateCampaignResponse
  | badRequest
  | created (c : Campaign)
deriving DecidableEq

/-- The handler of `POST /api/campaigns`: 400 on any validator failure,
otherwise store a new active campaign with the submitted goal and end date. -/
def createCampaign (r : CampaignRequest) : CreateCampaignResponse :=
  if createCampaignValid r then
    CreateCampaignResponse.created
      { goal := r.goal, raised := 0, donations := [], donorCount := 0,
        status := CampaignStatus.active, endDate := r.endDate.getD 0 }
  else
    CreateCampaignResponse.badRequest

/-- An otherwise valid creation request whose end date is one day before the
epoch reference point taken as the request time. -/
def pastEndDateRequest : CampaignRequest :=
  { titleLength := 20, descriptionLength := 150, goal := 500,
    category := "Education", endDate := some (-86400000) }

/-- C9 counterexample: with the request time taken as 0, a request whose
parsed end date is one day in the past (and goal 500) is not rejected; the
campaign is created and stored with that past end date, contradicting the
claim that an end date not in the future yields a 400 and no stored
campaign. -/
theorem createCampaign_accepts_past_endDate :
    100 ≤ pastEndDateRequest.goal ∧
    pastEndDateRequest.endDate = some (-86400000) ∧
    (-86400000 : Int) < 0 ∧
    createCampaign pastEndDateRequest =
      CreateCampaignResponse.created
        { goal := 500, raised := 0, donations := [], donorCount := 0,
          status := CampaignStatus.active, endDate := -86400000 } ∧
    createCampaign pastEndDateRequest ≠ CreateCampaignResponse.badRequest := by
  decide

/-- C9 amended: a campaign is created only if goal >= 100 and `endDate` parses
as an ISO-8601 date; a request with goal < 100 or a malformed `endDate` is
rejected with a 400 validation error and no campaign is stored. The validator
never compares `endDate` with the current time, so a well-formed past end date
is accepted. -/
theorem createCampaign_validates_goal_and_endDate_format (r : CampaignRequest) :
    (r.goal < 100 → createCampaign r = CreateCampaignResponse.badRequest) ∧
    (r.endDate = none → createCampaign r = CreateCampaignResponse.badRequest) ∧
    (∀ c, createCampaign r = CreateCampaignResponse.created c →
      100 ≤ r.goal ∧ r.endDate = some c.endDate ∧ c.raised = 0 ∧
        c.status = CampaignStatus.active) := by
  refine ⟨?_, ?_, ?_⟩
  · intro hg
    unfold createCampaign createCampaignValid
    have : ¬ (100 ≤ r.goal) := by omega
    simp [this]
  · intro he
    unfold createCampaign createCampaignValid
    simp [he]
  · intro c hc
    unfold createCampaign at hc
    by_cases hv : createCampaignValid r = true
    · rw [if_pos hv] at hc
      have hparts := hv
      unfold createCampaignValid at hparts
      simp only [Bool.and_eq_true, decide_eq_true_eq] at hparts
      have hgoal : 100 ≤ r.goal := hparts.1.1.2
      have hsome : r.endDate.isSome = true := hparts.2
      obtain ⟨t, ht⟩ := Option.isSome_iff_exists.mp hsome
      have hcampaign :
          ({ goal := r.goal, raised := 0, donations := [], donorCount := 0,
             status := CampaignStatus.active, endDate := r.endDate.getD 0 } : Campaign) = c :=
        CreateCampaignResponse.created.inj hc
      refine ⟨hgoal, ?_, ?_, ?_⟩
      · rw [← hcampaign, ht]
        simp
      · rw [← hcampaign]
      · rw [← hcampaign]
    · rw [if_neg hv] at hc
      exact absurd hc (by simp)

/-- Witness for C9 amended at a request with goal 50 and at a request with a
malformed end date. -/
theorem createCampaign_validates_goal_and_endDate_format_witness :
    (({ titleLength := 20, descriptionLength := 150, goal := 50,
        category := "Education", endDate := some 0 } : CampaignRequest).goal < 100 →
      createCampaign
          { titleLength := 20, descriptionLength := 150, goal := 50,
            category := "Education", endDate := some 0 } =
        CreateCampaignResponse.badRequest) ∧
    (({ titleLength := 20, descriptionLength := 150, goal := 50,
        category := "Education", endDate := some 0 } : CampaignRequest).endDate = none →
      createCampaign
          { titleLength := 20, descriptionLength := 150, goal := 50,
            category := "Education", endDate := some 0 } =
        CreateCampaignResponse.badRequest) ∧
    (∀ c, createCampaign
          { titleLength := 20, descriptionLength := 150, goal := 50,
            category := "Education", endDate := some 0 } =
          CreateCampaignResponse.created c →
      100 ≤ ({ titleLength := 20, descriptionLength := 150, goal := 50,
               category := "Education", endDate := some 0 } : CampaignRequest).goal ∧
        ({ titleLength := 20, descriptionLength := 150, goal := 50,
           category := "Education", endDate := some 0 } : CampaignRequest).endDate =
          some c.endDate ∧
        c.raised = 0 ∧ c.status = CampaignStatus.active) :=
  createCampaign_validates_goal_and_endDate_format
    { titleLength := 20, descriptionLength := 150, goal := 50,
      category := "Education", endDate := some 0 }
